import Mathlib

/-!
Verification of the `landscaper-cli blueprints add execution` command
(`cmd/blueprints/add_execution.go`).

The Go command is sequential file I/O plus structured-document mutation.
We embed it shallowly:

* the filesystem is an association list from path strings to entries
  (a regular file holding a structured document, or a directory);
* file contents are modelled at the structured-document level (the spec's
  "structured document codec" collaborator): a `Yaml` value tree, since
  the external YAML serializer (`ghodss/yaml`, the k8s codec factory) is
  not part of this repository;
* each Go function becomes a Lean function of the same name; the
  receiver fields `blueprintPath` and `name` become explicit arguments;
* Go's `(value, error)` returns become `Except`/pairs; `run` threads the
  filesystem state explicitly and returns the final filesystem together
  with its `error` result, so that frame conditions ("no file touched on
  failure") are statable.
-/

set_option autoImplicit false

/-- A structured-text (YAML-like) document value.  Models the byte-level
file contents at the structured level, per the codec abstraction. -/
inductive Yaml where
  | str (s : String)
  | list (xs : List Yaml)
  | map (kvs : List (String × Yaml))

/-- One named template-execution step of a blueprint.
Embeds Go `core.TemplateExecutor` (the fields this command touches:
`Name`, `Type`, `File`).  `Type` is a Lean keyword, hence the guillemets. -/
structure TemplateExecutor where
  Name : String
  «Type» : String
  File : String
deriving DecidableEq

/-- The blueprint document.  Embeds Go `core.Blueprint`, restricted to the
field this command reads and mutates: the ordered list `DeployExecutions`. -/
structure Blueprint where
  DeployExecutions : List TemplateExecutor
deriving DecidableEq

/-- A filesystem entry: a regular file with structured content, or a
directory. -/
inductive FsEntry where
  | file (content : Yaml)
  | dir

/-- The filesystem: an association list from absolute path strings to
entries.  Later entries are shadowed by earlier ones. -/
abbrev FileSystem := List (String × FsEntry)

/-- `os.Stat`: look up a path; `none` models the `IsNotExist` error. -/
def statFs : FileSystem → String → Option FsEntry
  | [], _ => none
  | (q, e) :: rest, p => if p = q then some e else statFs rest p

/-- `os.Create` followed by a successful write: (over)write the entry at
`p` with a regular file holding `content`. -/
def writeFs (fs : FileSystem) (p : String) (content : Yaml) : FileSystem :=
  (p, FsEntry.file content) :: fs

/-- `filepath.Join` for clean, non-empty component names. -/
def joinPath (dir file : String) : String :=
  dir ++ "/" ++ file

/-- The fixed blueprint file name inside the blueprint directory.
Modelled from the spec: the constants `lsv1alpha1.BlueprintFileName` and
`blueprintFilename` are declared outside this repository fragment; the
spec fixes a single "fixed filename within the given directory" used both
by the load and the persist step. -/
def blueprintFileName : String := "blueprint.yaml"

/-- The error taxonomy of the spec (§7).  The Go code returns wrapped
`error` values; the spec names the four classes. -/
inductive AddError where
  | loadError
  | duplicateExecutionError (name : String)
  | pathConflictError (fileName : String)
  | writeError
deriving DecidableEq

/-- Encoding of one `TemplateExecutor` into the structured document
(keys `name`, `type`, `file`, as in the blueprint file format). -/
def encodeExecutor (e : TemplateExecutor) : Yaml :=
  Yaml.map [("name", Yaml.str e.Name), ("type", Yaml.str e.«Type»), ("file", Yaml.str e.File)]

/-- Decoding of one `TemplateExecutor` from the structured document. -/
def decodeExecutor : Yaml → Option TemplateExecutor
  | Yaml.map [("name", Yaml.str n), ("type", Yaml.str t), ("file", Yaml.str f)] =>
      some ⟨n, t, f⟩
  | _ => none

/-- Decoding of a list of executors; fails if any element fails. -/
def decodeExecutorList : List Yaml → Option (List TemplateExecutor)
  | [] => some []
  | y :: ys =>
    match decodeExecutor y, decodeExecutorList ys with
    | some e, some es => some (e :: es)
    | _, _ => none

/-- Modelled from the spec: `encode(Document) → bytes` of the structured
document codec (§9); the concrete serializer `yaml.Marshal` lives outside
this repository.  Emits the `deployExecutions` list field of the
blueprint. -/
def encodeBlueprint (b : Blueprint) : Yaml :=
  Yaml.map [("deployExecutions", Yaml.list (b.DeployExecutions.map encodeExecutor))]

/-- Modelled from the spec: `decode(bytes) → Document` of the structured
document codec (§9); the concrete k8s universal decoder lives outside
this repository. -/
def decodeBlueprint : Yaml → Option Blueprint
  | Yaml.map [("deployExecutions", Yaml.list xs)] =>
    match decodeExecutorList xs with
    | some es => some ⟨es⟩
    | none => none
  | _ => none

/-- The options struct carrying the two positional arguments.
Embeds Go `addExecutionOptions`. -/
structure addExecutionOptions where
  blueprintPath : String
  name : String
deriving DecidableEq

/-- `Complete(args)`: store the two positional arguments (arity is
guaranteed upstream by `cobra.ExactArgs(2)`); never fails and performs no
content validation. -/
def Complete (arg0 arg1 : String) : Except String addExecutionOptions :=
  Except.ok ⟨arg0, arg1⟩

/-- `getExecutionFileName`: the companion file name for an execution. -/
def getExecutionFileName (name : String) : String :=
  name ++ "DeployExecution.yaml"

/-- `getExecutionFilePath`: the companion file path inside the blueprint
directory. -/
def getExecutionFilePath (blueprintPath name : String) : String :=
  joinPath blueprintPath (getExecutionFileName name)

/-- `existsExecution`: linear scan of the document's execution list for
an entry whose name equals `name`. -/
def existsExecution (blueprint : Blueprint) (name : String) : Bool :=
  blueprint.DeployExecutions.any (fun execution => execution.Name == name)

/-- `addExecution`: append the new execution record (name, fixed engine
type `"GoTemplate"`, root-relative file reference) to the document. -/
def addExecution (blueprint : Blueprint) (name : String) : Blueprint :=
  { blueprint with
      DeployExecutions := blueprint.DeployExecutions ++
        [{ Name := name, «Type» := "GoTemplate", File := "/" ++ getExecutionFileName name }] }

/-- `readBlueprint`: read the file at `<blueprintPath>/blueprint.yaml`
and decode it.  All failure modes (missing file, directory in place of
the file, undecodable content) are the spec's `LoadError`. -/
def readBlueprint (fs : FileSystem) (blueprintPath : String) : Except AddError Blueprint :=
  match statFs fs (joinPath blueprintPath blueprintFileName) with
  | none => Except.error AddError.loadError
  | some FsEntry.dir => Except.error AddError.loadError
  | some (FsEntry.file data) =>
    match decodeBlueprint data with
    | none => Except.error AddError.loadError
    | some blueprint => Except.ok blueprint

/-- `writeBlueprint`: encode the document and overwrite
`<blueprintPath>/blueprint.yaml`.  `os.Create` fails (`WriteError`) if a
directory occupies the path; in the model encoding itself never fails. -/
def writeBlueprint (fs : FileSystem) (blueprintPath : String) (blueprint : Blueprint) :
    Except AddError FileSystem :=
  match statFs fs (joinPath blueprintPath blueprintFileName) with
  | some FsEntry.dir => Except.error AddError.writeError
  | _ => Except.ok (writeFs fs (joinPath blueprintPath blueprintFileName) (encodeBlueprint blueprint))

/-- `existsExecutionFile`: `os.Stat` the companion path, returning the
Go pair `(exists, err)`: `(false, none)` when stat fails with not-found,
`(true, PathConflictError)` when a directory occupies the path, and
`(true, none)` for a regular file. -/
def existsExecutionFile (fs : FileSystem) (blueprintPath name : String) :
    Bool × Option AddError :=
  match statFs fs (getExecutionFilePath blueprintPath name) with
  | none => (false, none)
  | some FsEntry.dir => (true, some (AddError.pathConflictError (getExecutionFileName name)))
  | some (FsEntry.file _) => (true, none)

/-- The structured content written into a fresh companion file: the
literal `"deployItems: []\n"`, i.e. an empty list under the fixed key. -/
def deployItemsEmptyContent : Yaml :=
  Yaml.map [("deployItems", Yaml.list [])]

/-- `createExecutionFile`: create the companion file with the empty
deploy-items list.  `os.Create` fails (`WriteError`) if a directory
occupies the path. -/
def createExecutionFile (fs : FileSystem) (blueprintPath name : String) :
    Except AddError FileSystem :=
  match statFs fs (getExecutionFilePath blueprintPath name) with
  | some FsEntry.dir => Except.error AddError.writeError
  | _ => Except.ok (writeFs fs (getExecutionFilePath blueprintPath name) deployItemsEmptyContent)

/-- The tail of `run` after the companion-file step: `o.addExecution`
followed by `return o.writeBlueprint(blueprint)`. -/
def runWrite (fs : FileSystem) (blueprintPath name : String) (blueprint : Blueprint) :
    Except AddError Unit × FileSystem :=
  match writeBlueprint fs blueprintPath (addExecution blueprint name) with
  | Except.error e => (Except.error e, fs)
  | Except.ok fs2 => (Except.ok (), fs2)

/-- `run`: the whole operation, threading the filesystem.  Mirrors the Go
control flow: load, duplicate check, companion-file stat (error checked
first, as in Go), optional companion creation, append, persist.  The
second component is the filesystem after the operation (unchanged on any
failure before a write). -/
def run (fs : FileSystem) (blueprintPath name : String) :
    Except AddError Unit × FileSystem :=
  match readBlueprint fs blueprintPath with
  | Except.error e => (Except.error e, fs)
  | Except.ok blueprint =>
    if existsExecution blueprint name then
      (Except.error (AddError.duplicateExecutionError name), fs)
    else
      match existsExecutionFile fs blueprintPath name with
      | (_, some e) => (Except.error e, fs)
      | (ex, none) =>
        if ex then
          runWrite fs blueprintPath name blueprint
        else
          match createExecutionFile fs blueprintPath name with
          | Except.error e => (Except.error e, fs)
          | Except.ok fs1 => runWrite fs1 blueprintPath name blueprint

/-! ## Basic lemmas about the filesystem model and the codec -/

theorem statFs_writeFs_same (fs : FileSystem) (p : String) (c : Yaml) :
    statFs (writeFs fs p c) p = some (FsEntry.file c) := by
  simp [writeFs, statFs]

theorem statFs_writeFs_other (fs : FileSystem) (p : String) (c : Yaml) (q : String)
    (h : q ≠ p) : statFs (writeFs fs p c) q = statFs fs q := by
  simp [writeFs, statFs, h]

theorem decodeExecutor_encodeExecutor (e : TemplateExecutor) :
    decodeExecutor (encodeExecutor e) = some e := by
  cases e
  rfl

theorem decodeExecutorList_map_encodeExecutor (es : List TemplateExecutor) :
    decodeExecutorList (es.map encodeExecutor) = some es := by
  induction es with
  | nil => rfl
  | cons e es ih => simp [decodeExecutorList, decodeExecutor_encodeExecutor, ih]

theorem decodeBlueprint_encodeBlueprint (b : Blueprint) :
    decodeBlueprint (encodeBlueprint b) = some b := by
  cases b with
  | mk es => simp [encodeBlueprint, decodeBlueprint, decodeExecutorList_map_encodeExecutor]

/-- The companion file path never collides with the blueprint file path:
the two final components differ in length (`name ++ "DeployExecution.yaml"`
has at least 20 characters, `"blueprint.yaml"` has 14). -/
theorem executionFilePath_ne_blueprintFilePath (blueprintPath name : String) :
    getExecutionFilePath blueprintPath name ≠ joinPath blueprintPath blueprintFileName := by
  intro h
  have hl := congrArg String.length h
  simp only [getExecutionFilePath, joinPath, getExecutionFileName, blueprintFileName,
    String.length_append] at hl
  have h20 : ("DeployExecution.yaml" : String).length = 20 := rfl
  have h14 : ("blueprint.yaml" : String).length = 14 := rfl
  omega

theorem existsExecution_eq_false_iff (b : Blueprint) (name : String) :
    existsExecution b name = false ↔ name ∉ b.DeployExecutions.map TemplateExecutor.Name := by
  rw [existsExecution, List.any_eq_false]
  constructor
  · intro h hmem
    rcases List.mem_map.mp hmem with ⟨e, he, hname⟩
    exact h e he (by simp [hname])
  · intro h e he hbeq
    exact h (List.mem_map.mpr ⟨e, he, beq_iff_eq.mp hbeq⟩)

/-! ## Shape lemmas about the individual steps -/

theorem readBlueprint_ok_elim (fs : FileSystem) (path : String) (bp : Blueprint)
    (h : readBlueprint fs path = Except.ok bp) :
    ∃ d, statFs fs (joinPath path blueprintFileName) = some (FsEntry.file d) ∧
      decodeBlueprint d = some bp := by
  unfold readBlueprint at h
  split at h
  · cases h
  · cases h
  · next d hs =>
    split at h
    · cases h
    · next bp' hdec =>
      cases h
      exact ⟨d, hs, hdec⟩

theorem readBlueprint_writeFs (fs : FileSystem) (path : String) (b : Blueprint) :
    readBlueprint (writeFs fs (joinPath path blueprintFileName) (encodeBlueprint b)) path =
      Except.ok b := by
  simp [readBlueprint, statFs_writeFs_same, decodeBlueprint_encodeBlueprint]

theorem writeBlueprint_ok (fs : FileSystem) (path : String) (b : Blueprint) (d : Yaml)
    (hd : statFs fs (joinPath path blueprintFileName) = some (FsEntry.file d)) :
    writeBlueprint fs path b =
      Except.ok (writeFs fs (joinPath path blueprintFileName) (encodeBlueprint b)) := by
  unfold writeBlueprint
  rw [hd]

theorem createExecutionFile_absent (fs : FileSystem) (path name : String)
    (h : statFs fs (getExecutionFilePath path name) = none) :
    createExecutionFile fs path name =
      Except.ok (writeFs fs (getExecutionFilePath path name) deployItemsEmptyContent) := by
  unfold createExecutionFile
  rw [h]

theorem runWrite_ok (fs : FileSystem) (path name : String) (bp : Blueprint) (d : Yaml)
    (hd : statFs fs (joinPath path blueprintFileName) = some (FsEntry.file d)) :
    runWrite fs path name bp =
      (Except.ok (), writeFs fs (joinPath path blueprintFileName)
        (encodeBlueprint (addExecution bp name))) := by
  unfold runWrite
  rw [writeBlueprint_ok fs path (addExecution bp name) d hd]

theorem existsExecutionFile_absent (fs : FileSystem) (path name : String)
    (h : statFs fs (getExecutionFilePath path name) = none) :
    existsExecutionFile fs path name = (false, none) := by
  unfold existsExecutionFile
  rw [h]

theorem existsExecutionFile_file (fs : FileSystem) (path name : String) (c : Yaml)
    (h : statFs fs (getExecutionFilePath path name) = some (FsEntry.file c)) :
    existsExecutionFile fs path name = (true, none) := by
  unfold existsExecutionFile
  rw [h]

theorem existsExecutionFile_dir (fs : FileSystem) (path name : String)
    (h : statFs fs (getExecutionFilePath path name) = some FsEntry.dir) :
    existsExecutionFile fs path name =
      (true, some (AddError.pathConflictError (getExecutionFileName name))) := by
  unfold existsExecutionFile
  rw [h]

/-! ## Forward evaluation lemmas for `run`, one per control-flow path -/

theorem run_read_error (fs : FileSystem) (path name : String) (e : AddError)
    (h : readBlueprint fs path = Except.error e) :
    run fs path name = (Except.error e, fs) := by
  unfold run
  rw [h]

theorem run_duplicate_eq (fs : FileSystem) (path name : String) (bp : Blueprint)
    (hread : readBlueprint fs path = Except.ok bp)
    (hdup : existsExecution bp name = true) :
    run fs path name = (Except.error (AddError.duplicateExecutionError name), fs) := by
  unfold run
  rw [hread]
  simp [hdup]

theorem run_fresh_dir (fs : FileSystem) (path name : String) (bp : Blueprint)
    (hread : readBlueprint fs path = Except.ok bp)
    (hdup : existsExecution bp name = false)
    (hstat : statFs fs (getExecutionFilePath path name) = some FsEntry.dir) :
    run fs path name =
      (Except.error (AddError.pathConflictError (getExecutionFileName name)), fs) := by
  unfold run
  rw [hread]
  simp [hdup, existsExecutionFile_dir fs path name hstat]

theorem run_fresh_absent (fs : FileSystem) (path name : String) (bp : Blueprint)
    (hread : readBlueprint fs path = Except.ok bp)
    (hdup : existsExecution bp name = false)
    (hstat : statFs fs (getExecutionFilePath path name) = none) :
    run fs path name =
      (Except.ok (), writeFs (writeFs fs (getExecutionFilePath path name) deployItemsEmptyContent)
        (joinPath path blueprintFileName) (encodeBlueprint (addExecution bp name))) := by
  obtain ⟨d, hd, -⟩ := readBlueprint_ok_elim fs path bp hread
  have hne : joinPath path blueprintFileName ≠ getExecutionFilePath path name :=
    (executionFilePath_ne_blueprintFilePath path name).symm
  have hd1 : statFs (writeFs fs (getExecutionFilePath path name) deployItemsEmptyContent)
      (joinPath path blueprintFileName) = some (FsEntry.file d) := by
    rw [statFs_writeFs_other fs (getExecutionFilePath path name)
      deployItemsEmptyContent (joinPath path blueprintFileName) hne, hd]
  unfold run
  rw [hread]
  simp [hdup, existsExecutionFile_absent fs path name hstat,
    createExecutionFile_absent fs path name hstat,
    runWrite_ok _ path name bp d hd1]

theorem run_fresh_file (fs : FileSystem) (path name : String) (bp : Blueprint) (c : Yaml)
    (hread : readBlueprint fs path = Except.ok bp)
    (hdup : existsExecution bp name = false)
    (hstat : statFs fs (getExecutionFilePath path name) = some (FsEntry.file c)) :
    run fs path name =
      (Except.ok (), writeFs fs (joinPath path blueprintFileName)
        (encodeBlueprint (addExecution bp name))) := by
  obtain ⟨d, hd, -⟩ := readBlueprint_ok_elim fs path bp hread
  unfold run
  rw [hread]
  simp [hdup, existsExecutionFile_file fs path name c hstat,
    runWrite_ok fs path name bp d hd]

/-- Complete characterization of a successful `run`: the blueprint file
held a decodable document, the requested name was fresh, and the final
filesystem is the initial one plus (when the companion was absent) the
fresh companion file, plus the rewritten blueprint file. -/
theorem run_ok_shape (fs : FileSystem) (path name : String) (fs' : FileSystem)
    (hrun : run fs path name = (Except.ok (), fs')) :
    ∃ bp, readBlueprint fs path = Except.ok bp ∧
      existsExecution bp name = false ∧
      ((statFs fs (getExecutionFilePath path name) = none ∧
          fs' = writeFs (writeFs fs (getExecutionFilePath path name) deployItemsEmptyContent)
              (joinPath path blueprintFileName) (encodeBlueprint (addExecution bp name))) ∨
        (∃ c, statFs fs (getExecutionFilePath path name) = some (FsEntry.file c) ∧
          fs' = writeFs fs (joinPath path blueprintFileName)
              (encodeBlueprint (addExecution bp name)))) := by
  rcases hread : readBlueprint fs path with e | bp
  · rw [run_read_error fs path name e hread] at hrun
    simp at hrun
  · by_cases hdup : existsExecution bp name = true
    · rw [run_duplicate_eq fs path name bp hread hdup] at hrun
      simp at hrun
    · have hdup' : existsExecution bp name = false := by
        rw [Bool.not_eq_true] at hdup
        exact hdup
      rcases hstat : statFs fs (getExecutionFilePath path name) with - | entry
      · rw [run_fresh_absent fs path name bp hread hdup' hstat] at hrun
        simp only [Prod.mk.injEq] at hrun
        exact ⟨bp, rfl, hdup', Or.inl ⟨rfl, hrun.2.symm⟩⟩
      · cases entry with
        | file c =>
          rw [run_fresh_file fs path name bp c hread hdup' hstat] at hrun
          simp only [Prod.mk.injEq] at hrun
          exact ⟨bp, rfl, hdup', Or.inr ⟨c, rfl, hrun.2.symm⟩⟩
        | dir =>
          rw [run_fresh_dir fs path name bp hread hdup' hstat] at hrun
          simp at hrun

/-- On every failing `run` the filesystem is unchanged: each error path
returns before any write, and after a successful load the final persist
cannot fail in the model. -/
theorem run_error_fs_eq (fs : FileSystem) (path name : String) (e : AddError)
    (fs' : FileSystem) (hrun : run fs path name = (Except.error e, fs')) : fs' = fs := by
  rcases hread : readBlueprint fs path with e0 | bp
  · rw [run_read_error fs path name e0 hread] at hrun
    simp only [Prod.mk.injEq] at hrun
    exact hrun.2.symm
  · by_cases hdup : existsExecution bp name = true
    · rw [run_duplicate_eq fs path name bp hread hdup] at hrun
      simp only [Prod.mk.injEq] at hrun
      exact hrun.2.symm
    · have hdup' : existsExecution bp name = false := by
        rw [Bool.not_eq_true] at hdup
        exact hdup
      rcases hstat : statFs fs (getExecutionFilePath path name) with - | entry
      · rw [run_fresh_absent fs path name bp hread hdup' hstat] at hrun
        simp at hrun
      · cases entry with
        | file c =>
          rw [run_fresh_file fs path name bp c hread hdup' hstat] at hrun
          simp at hrun
        | dir =>
          rw [run_fresh_dir fs path name bp hread hdup' hstat] at hrun
          simp only [Prod.mk.injEq] at hrun
          exact hrun.2.symm

/-! ## Concrete sample filesystems for witnesses -/

/-- A directory `bp` holding a valid blueprint with zero executions. -/
def sampleFs : FileSystem := [("bp/blueprint.yaml", FsEntry.file (encodeBlueprint ⟨[]⟩))]

/-- The filesystem after a successful `run sampleFs "bp" "default"`. -/
def sampleFsAfter : FileSystem :=
  writeFs (writeFs sampleFs (getExecutionFilePath "bp" "default") deployItemsEmptyContent)
    (joinPath "bp" blueprintFileName) (encodeBlueprint (addExecution ⟨[]⟩ "default"))

/-- `sampleFs` with a directory occupying the companion path. -/
def conflictFs : FileSystem :=
  ("bp/defaultDeployExecution.yaml", FsEntry.dir) :: sampleFs

/-- A directory `bp` holding a blueprint that already lists the execution
named `"default"`. -/
def dupFs : FileSystem :=
  [("bp/blueprint.yaml",
    FsEntry.file (encodeBlueprint ⟨[⟨"default", "GoTemplate", "/defaultDeployExecution.yaml"⟩]⟩))]

/-- `sampleFs` with a regular file already at the companion path. -/
def presentFs : FileSystem :=
  ("bp/defaultDeployExecution.yaml", FsEntry.file (Yaml.str "keep")) :: sampleFs

/-- The filesystem after a successful `run presentFs "bp" "default"`. -/
def presentFsAfter : FileSystem :=
  writeFs presentFs (joinPath "bp" blueprintFileName)
    (encodeBlueprint (addExecution ⟨[]⟩ "default"))

/-! ## The claims -/

/-- C1: for every blueprint document and every name for which `run`
succeeds, the persisted document is the old one with exactly one new
record appended at the end, carrying the input name, the fixed engine
type `"GoTemplate"` and the file reference `"/" ++ name ++
"DeployExecution.yaml"`; no existing record is removed, modified or
reordered. -/
theorem C1_run_appends_exactly_one (fs : FileSystem) (path name : String)
    (bp : Blueprint) (fs' : FileSystem)
    (hread : readBlueprint fs path = Except.ok bp)
    (hrun : run fs path name = (Except.ok (), fs')) :
    readBlueprint fs' path = Except.ok
      ⟨bp.DeployExecutions ++
        [{ Name := name, «Type» := "GoTemplate", File := "/" ++ getExecutionFileName name }]⟩ := by
  obtain ⟨bp2, hread2, hdup, hcases⟩ := run_ok_shape fs path name fs' hrun
  rw [hread] at hread2
  injection hread2 with h
  subst h
  rcases hcases with ⟨hstat, rfl⟩ | ⟨c, hstat, rfl⟩
  · exact readBlueprint_writeFs _ path (addExecution bp name)
  · exact readBlueprint_writeFs _ path (addExecution bp name)

theorem C1_witness :
    readBlueprint sampleFsAfter "bp" = Except.ok
      ⟨([] : List TemplateExecutor) ++
        [{ Name := "default", «Type» := "GoTemplate",
           File := "/" ++ getExecutionFileName "default" }]⟩ :=
  C1_run_appends_exactly_one sampleFs "bp" "default" ⟨[]⟩ sampleFsAfter rfl rfl

/-- C2: when the document already lists an execution with the requested
name, `run` fails with the duplicate-execution error and the filesystem
is completely untouched (no companion created, no blueprint rewrite). -/
theorem C2_duplicate_rejected (fs : FileSystem) (path name : String) (bp : Blueprint)
    (hread : readBlueprint fs path = Except.ok bp)
    (hdup : existsExecution bp name = true) :
    run fs path name = (Except.error (AddError.duplicateExecutionError name), fs) :=
  run_duplicate_eq fs path name bp hread hdup

theorem C2_witness :
    run dupFs "bp" "default" =
      (Except.error (AddError.duplicateExecutionError "default"), dupFs) :=
  C2_duplicate_rejected dupFs "bp" "default"
    ⟨[⟨"default", "GoTemplate", "/defaultDeployExecution.yaml"⟩]⟩ rfl rfl

/-- C3 (counterexample to the claim as stated): at a concrete input where
the companion path is a directory, the existence check does return
`(true, PathConflictError)`, but the caller does NOT proceed past the
check: `run` aborts and surfaces exactly that error, leaving the
filesystem unchanged — it makes no forward progress. -/
theorem C3_counterexample :
    existsExecutionFile conflictFs "bp" "default" =
      (true, some (AddError.pathConflictError "defaultDeployExecution.yaml")) ∧
    ¬ (run conflictFs "bp" "default").1 = Except.ok () ∧
    run conflictFs "bp" "default" =
      (Except.error (AddError.pathConflictError "defaultDeployExecution.yaml"), conflictFs) := by
  refine ⟨rfl, ?_, rfl⟩
  intro h
  exact Except.noConfusion h

/-- C3 (amended): when the companion-file existence check detects that
the companion path is a directory, it returns both `exists = true` and
the `PathConflictError`; the caller checks the returned error before the
boolean and aborts the whole operation, surfacing that error. -/
theorem C3_amended_conflict_aborts (fs : FileSystem) (path name : String) (bp : Blueprint)
    (hread : readBlueprint fs path = Except.ok bp)
    (hdup : existsExecution bp name = false)
    (hdir : statFs fs (getExecutionFilePath path name) = some FsEntry.dir) :
    existsExecutionFile fs path name =
      (true, some (AddError.pathConflictError (getExecutionFileName name))) ∧
    run fs path name =
      (Except.error (AddError.pathConflictError (getExecutionFileName name)), fs) :=
  ⟨existsExecutionFile_dir fs path name hdir, run_fresh_dir fs path name bp hread hdup hdir⟩

theorem C3_witness :
    existsExecutionFile conflictFs "bp" "default" =
      (true, some (AddError.pathConflictError (getExecutionFileName "default"))) ∧
    run conflictFs "bp" "default" =
      (Except.error (AddError.pathConflictError (getExecutionFileName "default")), conflictFs) :=
  C3_amended_conflict_aborts conflictFs "bp" "default" ⟨[]⟩ rfl rfl rfl

/-- C4: when the requested name is fresh but a directory occupies the
companion path, `run` fails with `PathConflictError` (and the filesystem
is unchanged). -/
theorem C4_dir_conflict_fails (fs : FileSystem) (path name : String) (bp : Blueprint)
    (hread : readBlueprint fs path = Except.ok bp)
    (hdup : existsExecution bp name = false)
    (hdir : statFs fs (getExecutionFilePath path name) = some FsEntry.dir) :
    run fs path name =
      (Except.error (AddError.pathConflictError (getExecutionFileName name)), fs) :=
  run_fresh_dir fs path name bp hread hdup hdir

theorem C4_witness :
    run conflictFs "bp" "default" =
      (Except.error (AddError.pathConflictError (getExecutionFileName "default")), conflictFs) :=
  C4_dir_conflict_fails conflictFs "bp" "default" ⟨[]⟩ rfl rfl rfl

/-- C5: if the execution names of the loaded document are pairwise
distinct, then whatever `run` does (success or failure), the document
that can afterwards be loaded from disk still has pairwise-distinct
execution names: a duplicate is rejected before insertion, never merged
or overwritten. -/
theorem C5_uniqueness_preserved (fs : FileSystem) (path name : String) (bp : Blueprint)
    (r : Except AddError Unit) (fs' : FileSystem) (bp' : Blueprint)
    (hread : readBlueprint fs path = Except.ok bp)
    (hnodup : (bp.DeployExecutions.map TemplateExecutor.Name).Nodup)
    (hrun : run fs path name = (r, fs'))
    (hread' : readBlueprint fs' path = Except.ok bp') :
    (bp'.DeployExecutions.map TemplateExecutor.Name).Nodup := by
  rcases r with e | u
  · have hfs := run_error_fs_eq fs path name e fs' hrun
    subst hfs
    rw [hread] at hread'
    injection hread' with h
    subst h
    exact hnodup
  · cases u
    obtain ⟨bp2, hread2, hdup, hcases⟩ := run_ok_shape fs path name fs' hrun
    rw [hread] at hread2
    injection hread2 with h
    subst h
    have hread3 : readBlueprint fs' path = Except.ok (addExecution bp name) := by
      rcases hcases with ⟨hstat, rfl⟩ | ⟨c, hstat, rfl⟩
      · exact readBlueprint_writeFs _ path (addExecution bp name)
      · exact readBlueprint_writeFs _ path (addExecution bp name)
    rw [hread3] at hread'
    injection hread' with h
    subst h
    have hnotmem := (existsExecution_eq_false_iff bp name).mp hdup
    simp only [addExecution, List.map_append, List.map_cons, List.map_nil]
    exact List.Nodup.append hnodup (List.nodup_singleton name)
      (List.disjoint_singleton.mpr hnotmem)

theorem C5_witness :
    ((⟨[⟨"default", "GoTemplate", "/defaultDeployExecution.yaml"⟩]⟩ :
        Blueprint).DeployExecutions.map TemplateExecutor.Name).Nodup :=
  C5_uniqueness_preserved sampleFs "bp" "default" ⟨[]⟩ (Except.ok ()) sampleFsAfter
    ⟨[⟨"default", "GoTemplate", "/defaultDeployExecution.yaml"⟩]⟩ rfl (by simp) rfl rfl

/-- C6: whenever the companion path is absent (stat not-found) and `run`
succeeds, the companion file exists afterwards and its content is exactly
the empty deploy-items list under the fixed key. -/
theorem C6_creates_companion (fs : FileSystem) (path name : String) (fs' : FileSystem)
    (habsent : statFs fs (getExecutionFilePath path name) = none)
    (hrun : run fs path name = (Except.ok (), fs')) :
    statFs fs' (getExecutionFilePath path name) =
      some (FsEntry.file deployItemsEmptyContent) ∧
    deployItemsEmptyContent = Yaml.map [("deployItems", Yaml.list [])] := by
  obtain ⟨bp, hread, hdup, hcases⟩ := run_ok_shape fs path name fs' hrun
  rcases hcases with ⟨hstat, rfl⟩ | ⟨c, hstat, rfl⟩
  · refine ⟨?_, rfl⟩
    rw [statFs_writeFs_other _ (joinPath path blueprintFileName) _ _
      (executionFilePath_ne_blueprintFilePath path name)]
    exact statFs_writeFs_same fs (getExecutionFilePath path name) deployItemsEmptyContent
  · rw [habsent] at hstat
    cases hstat

theorem C6_witness :
    statFs sampleFsAfter (getExecutionFilePath "bp" "default") =
      some (FsEntry.file deployItemsEmptyContent) ∧
    deployItemsEmptyContent = Yaml.map [("deployItems", Yaml.list [])] :=
  C6_creates_companion sampleFs "bp" "default" sampleFsAfter rfl rfl

/-- C7: when a regular file already occupies the companion path, `run`
never recreates or overwrites it: after the operation (success or
failure) the companion path still holds the same file with the same
content. -/
theorem C7_companion_file_unchanged (fs : FileSystem) (path name : String) (c : Yaml)
    (r : Except AddError Unit) (fs' : FileSystem)
    (hfile : statFs fs (getExecutionFilePath path name) = some (FsEntry.file c))
    (hrun : run fs path name = (r, fs')) :
    statFs fs' (getExecutionFilePath path name) = some (FsEntry.file c) := by
  rcases r with e | u
  · rw [run_error_fs_eq fs path name e fs' hrun]
    exact hfile
  · cases u
    obtain ⟨bp, hread, hdup, hcases⟩ := run_ok_shape fs path name fs' hrun
    rcases hcases with ⟨hstat, rfl⟩ | ⟨c2, hstat, rfl⟩
    · rw [hfile] at hstat
      cases hstat
    · rw [statFs_writeFs_other fs (joinPath path blueprintFileName) _ _
        (executionFilePath_ne_blueprintFilePath path name)]
      exact hfile

theorem C7_witness :
    statFs presentFsAfter (getExecutionFilePath "bp" "default") =
      some (FsEntry.file (Yaml.str "keep")) :=
  C7_companion_file_unchanged presentFs "bp" "default" (Yaml.str "keep")
    (Except.ok ()) presentFsAfter rfl rfl

/-- C8: serializing the document produced by `addExecution` with
`writeBlueprint` and reloading it with `readBlueprint` yields exactly
that document, whose execution list contains the newly added record with
identical name, type and file values — the encode/decode pair loses no
field of the new record. -/
theorem C8_write_read_roundtrip (fs : FileSystem) (path name : String) (bp : Blueprint)
    (fs1 : FileSystem)
    (hw : writeBlueprint fs path (addExecution bp name) = Except.ok fs1) :
    readBlueprint fs1 path = Except.ok (addExecution bp name) ∧
    ({ Name := name, «Type» := "GoTemplate", File := "/" ++ getExecutionFileName name } :
        TemplateExecutor) ∈ (addExecution bp name).DeployExecutions := by
  have hfs1 : fs1 = writeFs fs (joinPath path blueprintFileName)
      (encodeBlueprint (addExecution bp name)) := by
    unfold writeBlueprint at hw
    split at hw
    · cases hw
    · injection hw with h
      exact h.symm
  subst hfs1
  refine ⟨readBlueprint_writeFs fs path (addExecution bp name), ?_⟩
  simp [addExecution]

theorem C8_witness :
    readBlueprint (writeFs sampleFs (joinPath "bp" blueprintFileName)
        (encodeBlueprint (addExecution ⟨[]⟩ "default"))) "bp" =
      Except.ok (addExecution ⟨[]⟩ "default") ∧
    ({ Name := "default", «Type» := "GoTemplate",
       File := "/" ++ getExecutionFileName "default" } : TemplateExecutor) ∈
      (addExecution ⟨[]⟩ "default").DeployExecutions :=
  C8_write_read_roundtrip sampleFs "bp" "default" ⟨[]⟩
    (writeFs sampleFs (joinPath "bp" blueprintFileName)
      (encodeBlueprint (addExecution ⟨[]⟩ "default"))) rfl

/-- C9: when the blueprint cannot be loaded (missing, unreadable as a
file, or undecodable), every failure of the load step is the spec's
`LoadError`, `run` fails with it, and the filesystem is completely
untouched. -/
theorem C9_load_failure_aborts (fs : FileSystem) (path name : String) (e : AddError)
    (h : readBlueprint fs path = Except.error e) :
    e = AddError.loadError ∧
    run fs path name = (Except.error AddError.loadError, fs) := by
  have he : e = AddError.loadError := by
    unfold readBlueprint at h
    split at h
    · injection h with h1
      exact h1.symm
    · injection h with h1
      exact h1.symm
    · split at h
      · injection h with h1
        exact h1.symm
      · cases h
  subst he
  exact ⟨rfl, run_read_error fs path name AddError.loadError h⟩

theorem C9_witness :
    AddError.loadError = AddError.loadError ∧
    run ([] : FileSystem) "bp" "default" =
      (Except.error AddError.loadError, ([] : FileSystem)) :=
  C9_load_failure_aborts [] "bp" "default" AddError.loadError rfl

/-- C10: argument completion never fails and performs no validation of
the execution name: every pair of positional strings is accepted, and the
empty name yields the companion file name `"DeployExecution.yaml"` and an
appended record with file reference `"/DeployExecution.yaml"`. -/
theorem C10_complete_accepts_everything :
    (∀ arg0 arg1 : String, Complete arg0 arg1 = Except.ok ⟨arg0, arg1⟩) ∧
    getExecutionFileName "" = "DeployExecution.yaml" ∧
    (addExecution ⟨[]⟩ "").DeployExecutions =
      [{ Name := "", «Type» := "GoTemplate", File := "/DeployExecution.yaml" }] :=
  ⟨fun _ _ => rfl, rfl, rfl⟩
